import Mathlib

/-
Verification of the URANUS agent runtime against its specification.

The definitions below are a shallow embedding of the Python sources:

  * uranus/schema/memory.py        (Memory.add_message, Memory._trim_memory)
  * uranus/schema/message.py       (Message)
  * uranus/tool/tool_registry.py   (ToolResult, ToolRegistry.execute)
  * uranus/tool/file_operations.py (FileOperationsTool.execute path guard)
  * uranus/tool/python_execute.py  (PythonExecuteTool.execute)
  * uranus/tool/terminal.py        (TerminalTool.execute)
  * uranus/agent/reactive_agent.py (ReactiveAgent.next_step)
  * uranus/agent/base_agent.py     (BaseAgent.run)

Python strings are embedded as Lean String values; where a proof has to
reason about character structure the code points are exposed as List Char,
which matches Python str semantics (a sequence of code points).
Machine-level concerns (actual process scheduling, the OS filesystem) are
embedded as explicit oracles or state records that the functions thread.
-/

set_option autoImplicit false

namespace Uranus

/-! ## Python string primitives

Each helper mirrors one Python string operation used by the sources.  A
Python str is a sequence of code points, embedded as the data field of a
Lean String; every operation is implemented by structural recursion over
that list so the kernel can evaluate it on concrete inputs (the library
versions built on Substring iterators use well-founded recursion and do
not reduce). -/

/-- Python s.lower(), code point by code point (all inputs here are
ASCII, where the two agree). -/
def pyLower (s : String) : String := String.mk (s.data.map Char.toLower)

/-- Python s.startswith(pre). -/
def pyStartsWith (s pre : String) : Bool := pre.data.isPrefixOf s.data

/-- Python s[n:] over code points, for a nonnegative index. -/
def pyDrop (s : String) (n : Nat) : String := String.mk (s.data.drop n)

/-- Python s.strip(): remove whitespace from both ends. -/
def trimChars (l : List Char) : List Char :=
  ((l.dropWhile Char.isWhitespace).reverse.dropWhile Char.isWhitespace).reverse

/-- Python s.strip(). -/
def pyTrim (s : String) : String := String.mk (trimChars s.data)

/-- Python membership test sub in s, over code-point lists. -/
def listContains : List Char → List Char → Bool
  | [], sub => sub.isEmpty
  | c :: rest, sub => sub.isPrefixOf (c :: rest) || listContains rest sub

/-- Python membership test sub in s for strings. -/
def pyContains (s sub : String) : Bool := listContains s.data sub.data

/-- Left-to-right non-overlapping split on a nonempty separator; the fuel
argument (instantiated with the input length) makes the recursion
structural. -/
def splitGo (sep : List Char) : Nat → List Char → List Char → List (List Char)
  | _, acc, [] => [acc.reverse]
  | 0, acc, rest => [acc.reverse ++ rest]
  | fuel + 1, acc, c :: rest =>
    if sep.isPrefixOf (c :: rest) then
      acc.reverse :: splitGo sep fuel [] ((c :: rest).drop sep.length)
    else
      splitGo sep fuel (c :: acc) rest

/-- Python s.split(sep) for a nonempty separator (the sources never split
on an empty one). -/
def pySplit (s sep : String) : List String :=
  if sep.data.isEmpty then [s]
  else (splitGo sep.data s.data.length [] s.data).map String.mk

/-- Python s.split(sep, 1): split at the first occurrence of sep only,
the tail re-joined. -/
def pySplitOnce (s sep : String) : List String :=
  match pySplit s sep with
  | [] => []
  | [x] => [x]
  | x :: rest => [x, String.intercalate sep rest]

/-- Python s.split(sep, 2): at most two splits, remainder re-joined. -/
def pySplit2 (s sep : String) : List String :=
  match pySplit s sep with
  | x :: y :: z :: rest => [x, y, String.intercalate sep (z :: rest)]
  | l => l

/-! ## Data model: ToolResult, tool exceptions, Message

From uranus/tool/tool_registry.py and uranus/schema/message.py.  The data
mapping of a ToolResult is embedded as a string-keyed association list,
enough for every payload the verified tools build. -/

/-- Result of a tool execution (tool_registry.py, class ToolResult), with
the pydantic field defaults success=True, output="", data=None. -/
structure ToolResult where
  success : Bool := true
  output : String := ""
  data : Option (List (String × String)) := none
deriving Repr, DecidableEq

/-- An exception escaping a tool: either the typed ToolError of
tool_registry.py or any other Python exception; both carry str(e). -/
inductive PyExc where
  | toolError (msg : String)
  | otherExc (msg : String)
deriving Repr, DecidableEq

/-- Python str(e) of an embedded exception. -/
def PyExc.msg : PyExc → String
  | .toolError m => m
  | .otherExc m => m

/-- A conversation message (message.py, class Message); the optional
name/tool_calls fields are never set by the verified code paths. -/
structure Message where
  role : String
  content : String
deriving Repr, DecidableEq

/-! ## Memory (uranus/schema/memory.py)

add_message appends and then trims: if len(messages) > max_messages the
list is replaced by messages[-max_messages:].  The Python slice is
embedded exactly, including the degenerate -0 == 0 case. -/

/-- Python l[i:] for an arbitrary integer i: for i >= 0 drop i elements
from the front, for i < 0 keep the last -i elements (clamped). -/
def pySliceFrom {α : Type} (l : List α) (i : Int) : List α :=
  if 0 ≤ i then l.drop i.toNat else l.drop ((l.length : Int) + i).toNat

/-- Memory._trim_memory: if len(messages) > max_messages, keep
messages[-max_messages:]. -/
def trimMemory (maxMessages : Int) (messages : List Message) : List Message :=
  if maxMessages < (messages.length : Int) then
    pySliceFrom messages (-maxMessages)
  else messages

/-- Memory.add_message: append, then trim. -/
def addMessage (maxMessages : Int) (messages : List Message) (m : Message) :
    List Message :=
  trimMemory maxMessages (messages ++ [m])

/-! ## Tool registry (uranus/tool/tool_registry.py)

A registry state is the dict name -> tool; a tool's execute is embedded as
a function from its keyword arguments to either a ToolResult or a raised
exception.  ToolRegistry.execute is a total Lean function: the source
method catches every exception a tool raises, so it never raises itself. -/

/-- Keyword arguments of a tool call, as passed by ToolRegistry.execute. -/
abbrev Kwargs := List (String × String)

/-- Behaviour of one tool's execute method. -/
abbrev ToolBehaviour := Kwargs → Except PyExc ToolResult

/-- A registry state: the dict name -> tool as an association list
(Python dict keys are unique; the superset of all association lists is
quantified over in the theorems). -/
abbrev Registry := List (String × ToolBehaviour)

/-- ToolRegistry.get: dict lookup, returning the first binding. -/
def dictGet (reg : Registry) (name : String) : Option ToolBehaviour :=
  (reg.find? (fun p => p.1 == name)).map Prod.snd

/-- ToolRegistry.list_tools: the registered names in order. -/
def listTools (reg : Registry) : List String :=
  reg.map Prod.fst

/-- ToolRegistry.execute: absent name -> failure result enumerating the
registered names; a raised ToolError -> failure result with str(e); any
other raised exception -> failure result with the wrapped message;
otherwise the tool's own result, unchanged. -/
def registryExecute (reg : Registry) (name : String) (kw : Kwargs) :
    ToolResult :=
  match dictGet reg name with
  | none =>
    { success := false
      output := "Tool \x27" ++ name ++ "\x27 not found. Available tools: " ++
        String.intercalate ", " (listTools reg) }
  | some tool =>
    match tool kw with
    | .ok r => r
    | .error (.toolError m) => { success := false, output := m }
    | .error (.otherExc m) =>
      { success := false
        output := "Error executing tool \x27" ++ name ++ "\x27: " ++ m }

/-! ## Isolated code execution (uranus/tool/python_execute.py)

The worker process communicates through the manager dict
result_dict = {observation, success}; _run_code sets observation to the
captured stdout text and success=True when exec finishes, and sets
observation to str(e) and success=False when exec raises.  The wall-clock
behaviour of one invocation is embedded as a WorkerRun value: either the
worker finishes within the timeout (with its stdout text, and the message
of the exception if one was raised), or it is still alive when
process.join(timeout) returns.  PythonExecuteTool.execute returns the
ToolResult together with the liveness of the worker process after the
method returns: the timeout branch terminates and joins the worker, the
other branches only return after the worker has already exited. -/

/-- One wall-clock behaviour of the worker process. -/
inductive WorkerRun where
  | completes (stdoutText : String)
  | raises (stdoutText : String) (excMsg : String)
  | runsPastTimeout
deriving Repr, DecidableEq

/-- The manager dict (observation, success) as _run_code leaves it; the
captured stdout is discarded when exec raised. -/
def workerDict : WorkerRun → String × Bool
  | .completes out => (out, true)
  | .raises _ e => (e, false)
  | .runsPastTimeout => ("", false)

/-- PythonExecuteTool.execute: first component the ToolResult, second
component whether the worker process is still running after return. -/
def pythonExecute (timeout : Nat) (w : WorkerRun) : ToolResult × Bool :=
  match w with
  | .runsPastTimeout =>
    ({ success := false
       output := "Execution timed out after " ++ toString timeout ++ " seconds" },
     false)
  | _ =>
    let d := workerDict w
    if d.2 then ({ success := true, output := d.1 }, false)
    else ({ success := false, output := "Error executing code: " ++ d.1 }, false)

/-! ## Sandboxed path resolution (uranus/tool/file_operations.py)

FileOperationsTool.execute resolves full_path = (base_dir / path).resolve()
and raises ToolError("Access denied: ...") unless
str(full_path).startswith(str(base_dir)); only then does it dispatch the
requested operation at full_path.  Absolute canonical paths are embedded
as lists of path components from the filesystem root; rendering to a
Python str is embedded at the code-point level (List Char), on which
str.startswith is exactly List.isPrefixOf. -/

/-- Components of a POSIX path text: split on the separator, dropping
empty components and single dots, keeping dot-dot, as pathlib does. -/
def splitPath (p : String) : List String :=
  (pySplit p "/").filter (fun s => !(s == "") && !(s == "."))

/-- pathlib joining base_dir / path: an absolute right operand replaces
the base entirely. -/
def joinPath (base : List String) (p : String) : List String :=
  if pyStartsWith p "/" then splitPath p else base ++ splitPath p

/-- Canonicalization performed by Path.resolve / os.path.abspath: fold the
components, a dot-dot popping the last component (a no-op at the root). -/
def resolveSegs (segs : List String) : List String :=
  segs.foldl (fun acc s => if s = ".." then acc.dropLast else acc ++ [s]) []

/-- The code points of str(path) for an absolute path: a leading slash
followed by the slash-separated components. -/
def renderChars (segs : List String) : List Char :=
  '/' :: List.intercalate ['/'] (segs.map String.data)

/-- The str form of an absolute path, used in messages and stored state. -/
def pathString (segs : List String) : String :=
  "/" ++ String.intercalate "/" segs

/-- Lines 40-43 of file_operations.py: resolve the argument against the
sandbox root and apply the startswith guard.  some r means the guard
passed and every subsequent filesystem operation runs at r; none means
ToolError("Access denied: ...") is raised before any I/O. -/
def sandboxGuard (base : List String) (p : String) : Option (List String) :=
  let r := resolveSegs (joinPath base p)
  if (renderChars base).isPrefixOf (renderChars r) then some r else none

/-- FileOperationsTool.execute up to operation dispatch: ok (op, r) means
the operation op proceeds against the resolved path r (lines 45-57);
error means the access-denied ToolError was raised with no I/O done. -/
def fileOpsGate (base : List String) (op p : String) :
    Except String (String × List String) :=
  match sandboxGuard base p with
  | none => .error ("Access denied: Path must be within " ++ pathString base)
  | some r => .ok (op, r)

/-- The sibling-escape shape that defeats the startswith guard: the
resolved path agrees with the sandbox root on all but the last component
and then continues with a component that extends the root's last
component as a character prefix (for example root uranus_workspace,
component uranus_workspace_evil). -/
def sibDivB (base r : List String) : Bool :=
  match r.drop (base.length - 1) with
  | [] => false
  | e :: _ =>
    !base.isEmpty && base.dropLast.isPrefixOf r &&
      (base.getLast?.getD "").data.isPrefixOf e.data

/-! ## Terminal tool (uranus/tool/terminal.py)

TerminalTool.execute splits the command on the ampersand, strips and
drops empty segments, and runs the segments serially.  A segment starting
with cd-space is intercepted: the target is joined to the stored
current_path when relative, normalized with os.path.abspath,
existence-checked, and on success the method calls os.chdir(target) (a
process-wide change) and stores target as current_path.  Any other
segment is handed to a subprocess shell with cwd = current_path; nonempty
stdout/stderr are appended to the accumulated output/error texts.  The
method returns ToolResult(success=True, output=stripped output,
data={error, current_path}) whenever no exception escapes the loop.

The OS is threaded explicitly: ex is os.path.exists, chd models whether
os.chdir raises (none = success, some m = exception text str(e)), sub is
the subprocess shell mapping (command, cwd) to (stdout, stderr).  The
state carries both the tool field current_path and the process-wide
working directory that os.chdir mutates.  Subprocess invocations are
recorded so that theorems can speak about what reached a shell. -/

/-- Mutable state visible to TerminalTool.execute: the instance field
current_path and the working directory of the hosting process. -/
structure TermState where
  toolPath : List String
  procCwd : List String
deriving Repr, DecidableEq

/-- One recorded subprocess invocation: the segment text and the cwd
passed to create_subprocess_shell. -/
structure SubCall where
  cmd : String
  cwd : List String
deriving Repr, DecidableEq

/-- Line 45 of terminal.py: split on the ampersand, strip, drop empties. -/
def pySegments (command : String) : List String :=
  ((pySplit command "&").map pyTrim).filter (fun s => !(s == ""))

/-- Lines 54-59 of terminal.py: join a relative cd target to the stored
current path, then normalize with os.path.abspath. -/
def cdTarget (cur : List String) (p : String) : List String :=
  if pyStartsWith p "/" then resolveSegs (splitPath p)
  else resolveSegs (cur ++ splitPath p)

/-- The command loop of TerminalTool.execute (lines 49-86), returning the
final state, accumulated output text, accumulated error text, and the
subprocess invocations made. -/
def runSegments (ex : List String → Bool) (chd : List String → Option String)
    (sub : String → List String → String × String) :
    TermState → List String → TermState × String × String × List SubCall
  | st, [] => (st, "", "", [])
  | st, seg :: rest =>
    if pyStartsWith seg "cd " then
      let p := pyTrim (pyDrop seg 3)
      let tgt := cdTarget st.toolPath p
      if ex tgt then
        match chd tgt with
        | none =>
          let res := runSegments ex chd sub { toolPath := tgt, procCwd := tgt } rest
          (res.1, ("Changed directory to " ++ pathString tgt ++ "\n") ++ res.2.1,
           res.2.2.1, res.2.2.2)
        | some m =>
          let res := runSegments ex chd sub st rest
          (res.1, res.2.1,
           ("Error changing directory: " ++ m ++ "\n") ++ res.2.2.1, res.2.2.2)
      else
        let res := runSegments ex chd sub st rest
        (res.1, res.2.1,
         ("Directory not found: " ++ pathString tgt ++ "\n") ++ res.2.2.1,
         res.2.2.2)
    else
      let out := sub seg st.toolPath
      let res := runSegments ex chd sub st rest
      (res.1, (if out.1 == "" then "" else out.1 ++ "\n") ++ res.2.1,
       (if out.2 == "" then "" else out.2 ++ "\n") ++ res.2.2.1,
       ⟨seg, st.toolPath⟩ :: res.2.2.2)

/-- TerminalTool.execute on the no-escaping-exception path: run the
segments, then package ToolResult(success=True, output=output.strip(),
data={error: error.strip(), current_path}). -/
def terminalExecute (ex : List String → Bool)
    (chd : List String → Option String)
    (sub : String → List String → String × String)
    (st : TermState) (command : String) :
    TermState × ToolResult × List SubCall :=
  let r := runSegments ex chd sub st (pySegments command)
  (r.1,
   { success := true
     output := pyTrim r.2.1
     data := some [("error", pyTrim r.2.2.1),
                   ("current_path", pathString r.1.toolPath)] },
   r.2.2.2)

/-! ## Agent dispatch (uranus/agent/reactive_agent.py, base_agent.py)

ReactiveAgent.next_step appends the user message, computes
self.tools.to_params() (the one statement outside its try block that a
registered tool can make raise), and then walks the trigger chain; every
exception raised inside the try block is caught, sets state to ERROR and
yields the text Error: str(e).  The chain is embedded branch for branch
below, one definition per elif arm, each falling through to the next.

BaseAgent.run sets state to the plain string RUNNING (pydantic does not
validate the assignment, so the lowercase enum values of AgentState are
never stored), calls next_step, and on the non-keyword path sets state to
IDLE before returning.  Its except handler first evaluates
logger.error(...), but base_agent.py never imports logger, so the handler
itself raises NameError: name logger is not defined, which propagates to
the caller with state and the line self.state = ERROR unreached. -/

/-- Outcome of a next_step call: a returned string or a propagated
exception (str(e)). -/
inductive StepOutcome where
  | ok (resp : String)
  | raised (msg : String)
deriving Repr, DecidableEq

/-- Result of a next_step call: outcome, memory, and agent state. -/
structure StepResult where
  outcome : StepOutcome
  memory : List Message
  state : String
deriving Repr, DecidableEq

/-- Environment of one dispatch: which tools are registered and how each
registered capability behaves.  The file_operations entry is the concrete
FileOperationsTool of file_operations.py, whose call binding is embedded
below, so only its registration is recorded. -/
structure AgentEnv where
  toParamsErr : Option String := none
  sysTool : Option (Except PyExc ToolResult) := none
  browser : Option (List (String × String) → Except PyExc ToolResult) := none
  browserUse : Option (List (String × String) → Except PyExc ToolResult) := none
  terminal : Option (String → Except PyExc ToolResult) := none
  fileOpsRegistered : Bool := false
  toolsDesc : String := ""
  llm : String → Except PyExc String := fun _ => .ok ""

/-- Keyword list of the system-status trigger (reactive_agent.py line 32,
base_agent.py line 55). -/
def sysKeywords : List String := ["system status", "system info", "system information"]

/-- Exact command words of the terminal trigger (line 106). -/
def termWords : List String := ["ls", "pwd", "whoami", "date", "hostname"]

/-- Command prefixes of the terminal trigger (line 107). -/
def termStarts : List String :=
  ["echo ", "cat ", "grep ", "find ", "ps ", "mkdir ", "touch "]

/-- Parameter names accepted by FileOperationsTool.execute
(file_operations.py line 18: operation, path, content, recursive). -/
def fileOpsParams : List String := ["operation", "path", "content", "recursive"]

/-- Parameters of FileOperationsTool.execute without a default value. -/
def fileOpsRequired : List String := ["operation", "path"]

/-- CPython keyword binding of a call to FileOperationsTool.execute: an
unknown keyword raises TypeError (got an unexpected keyword argument),
then a missing required parameter raises TypeError; only a well-formed
call reaches the method body. -/
def bindFileOpsCall (kwargs : List (String × String)) : Except PyExc Unit :=
  match kwargs.find? (fun kv => !(fileOpsParams.contains kv.1)) with
  | some kv =>
    .error (.otherExc ("execute() got an unexpected keyword argument \x27" ++
      kv.1 ++ "\x27"))
  | none =>
    match fileOpsRequired.find? (fun r => !(kwargs.any (fun kv => kv.1 == r))) with
    | some r =>
      .error (.otherExc ("execute() missing 1 required positional argument: \x27" ++
        r ++ "\x27"))
    | none => .ok ()

/-- Trigger 8 (lines 175-188): build the augmented system prompt and ask
the LLM; the completion is appended as an assistant message and returned. -/
def chainLlm (env : AgentEnv) (systemPrompt : String) (mx : Int)
    (mem : List Message) : Except PyExc (String × List Message) :=
  let enhanced := systemPrompt ++
    "\n\nYou have access to the following tools:\n" ++ env.toolsDesc ++
    "\n\nTo use a tool, respond with the tool name and parameters in a structured format."
  match env.llm enhanced with
  | .error e => .error e
  | .ok resp => .ok (resp, addMessage mx mem ⟨"assistant", resp⟩)

/-- Trigger 7 (lines 147-173): list-files commands, calling the file tool
with keywords action and path, which its binding rejects. -/
def chainListFiles (env : AgentEnv) (systemPrompt : String) (mx : Int)
    (mem : List Message) (input low : String) :
    Except PyExc (String × List Message) :=
  if pyStartsWith low "list file" || pyStartsWith low "list directory" || low == "ls" then
    if env.fileOpsRegistered then
      let path :=
        if pyContains input " " && !(low == "ls") then
          match pySplit2 input " " with
          | _ :: _ :: p :: _ => pyTrim p
          | _ => "."
        else "."
      match bindFileOpsCall [("action", "list"), ("path", path)] with
      | .error e => .error e
      | .ok _ => .ok ("", mem)
    else
      .ok ("File operations tool is not available. Please make sure it\x27s properly registered.", mem)
  else chainLlm env systemPrompt mx mem

/-- Trigger 6 (lines 123-145): create-file commands; the filename is cut
out of the lowercased input after the token space-file-space, and the
file tool is called with keywords action, name, content, which its
binding rejects. -/
def chainCreateFile (env : AgentEnv) (systemPrompt : String) (mx : Int)
    (mem : List Message) (input low : String) :
    Except PyExc (String × List Message) :=
  if pyStartsWith low "create file" || pyStartsWith low "make a file" || pyStartsWith low "make file" then
    if env.fileOpsRegistered then
      match pySplitOnce low " file " with
      | _ :: fn :: _ =>
        match bindFileOpsCall [("action", "create"), ("name", pyTrim fn), ("content", "")] with
        | .error e => .error e
        | .ok _ => .ok ("", mem)
      | _ => .ok ("Please specify a filename.", mem)
    else
      .ok ("File operations tool is not available. Please make sure it\x27s properly registered.", mem)
  else chainListFiles env systemPrompt mx mem input low

/-- Trigger 5 (lines 105-121): terminal commands; empty successful output
becomes a fixed placeholder, failure is reported without appending. -/
def chainTerminal (env : AgentEnv) (systemPrompt : String) (mx : Int)
    (mem : List Message) (input low : String) :
    Except PyExc (String × List Message) :=
  if termWords.contains low || termStarts.any (fun p => pyStartsWith low p) then
    match env.terminal with
    | none =>
      .ok ("Terminal tool is not available. Please make sure it\x27s properly registered.", mem)
    | some f =>
      match f input with
      | .error e => .error e
      | .ok r =>
        if r.success then
          let resp := if r.output == "" then
            "(Command executed successfully with no output)" else r.output
          .ok (resp, addMessage mx mem ⟨"assistant", resp⟩)
        else .ok ("Failed to execute command: " ++ r.output, mem)
  else chainCreateFile env systemPrompt mx mem input low

/-- Trigger 4 (lines 81-103): browser.open_url via the browser_use tool. -/
def chainBrowserOpen (env : AgentEnv) (systemPrompt : String) (mx : Int)
    (mem : List Message) (input low : String) :
    Except PyExc (String × List Message) :=
  if pyStartsWith low "browser.open_url" then
    match env.browserUse with
    | none =>
      .ok ("Browser_use tool is not available. Please make sure it\x27s properly registered.", mem)
    | some f =>
      match pySplitOnce input " " with
      | _ :: u :: _ =>
        match f [("action", "navigate"), ("url", pyTrim u)] with
        | .error e => .error e
        | .ok r =>
          if r.success then
            let resp := "Navigated to " ++ pyTrim u ++ " in the browser."
            .ok (resp, addMessage mx mem ⟨"assistant", resp⟩)
          else .ok ("Failed to open URL: " ++ r.output, mem)
      | _ => .ok ("Please specify a URL to open.", mem)
  else chainTerminal env systemPrompt mx mem input low

/-- Trigger 3 (lines 59-79): navigate-to / go-to via the browser tool. -/
def chainNavigate (env : AgentEnv) (systemPrompt : String) (mx : Int)
    (mem : List Message) (input low : String) :
    Except PyExc (String × List Message) :=
  if pyStartsWith low "navigate to " || pyStartsWith low "go to " then
    match env.browser with
    | none =>
      .ok ("Browser tool is not available. Please make sure it\x27s properly registered.", mem)
    | some f =>
      let url := if pyStartsWith low "navigate to " then pyTrim (pyDrop input 11)
        else pyTrim (pyDrop input 6)
      match f [("action", "navigate"), ("url", url)] with
      | .error e => .error e
      | .ok r =>
        if r.success then
          let resp := "I\x27ve opened " ++ url ++ " in the browser."
          .ok (resp, addMessage mx mem ⟨"assistant", resp⟩)
        else .ok ("Failed to navigate: " ++ r.output, mem)
  else chainBrowserOpen env systemPrompt mx mem input low

/-- Trigger 2 (lines 42-57): search via the browser tool. -/
def chainSearch (env : AgentEnv) (systemPrompt : String) (mx : Int)
    (mem : List Message) (input low : String) :
    Except PyExc (String × List Message) :=
  if pyStartsWith low "search " then
    match env.browser with
    | none =>
      .ok ("Browser tool is not available. Please make sure it\x27s properly registered.", mem)
    | some f =>
      let term := pyTrim (pyDrop input 7)
      match f [("action", "search"), ("query", term)] with
      | .error e => .error e
      | .ok r =>
        if r.success then
          let resp := "I\x27ve searched for \x27" ++ term ++ "\x27 in the browser."
          .ok (resp, addMessage mx mem ⟨"assistant", resp⟩)
        else .ok ("Failed to search: " ++ r.output, mem)
  else chainNavigate env systemPrompt mx mem input low

/-- Trigger 1 (lines 31-40): system-status keywords.  When the keyword
matches but the tool is absent or fails, control falls through silently
to the next trigger. -/
def nextChain (env : AgentEnv) (systemPrompt : String) (mx : Int)
    (mem : List Message) (input low : String) :
    Except PyExc (String × List Message) :=
  if sysKeywords.any (fun k => pyContains low k) then
    match env.sysTool with
    | some (Except.error e) => Except.error e
    | some (Except.ok r) =>
      if r.success then
        let resp := "Here\x27s the current system status:\n\n" ++ r.output
        .ok (resp, addMessage mx mem ⟨"assistant", resp⟩)
      else chainSearch env systemPrompt mx mem input low
    | none => chainSearch env systemPrompt mx mem input low
  else chainSearch env systemPrompt mx mem input low

/-- ReactiveAgent.next_step: append the user message, evaluate
self.tools.to_params() outside the try block (a raise there propagates),
then run the trigger chain inside the try block, whose except arm sets
state to ERROR and returns Error: str(e).  No raise point inside the
chain lies after a memory append, so the memory at the except arm is the
input message alone appended. -/
def nextStepE (env : AgentEnv) (systemPrompt : String) (mx : Int)
    (mem : List Message) (state : String) (input : String) : StepResult :=
  let mem1 := addMessage mx mem ⟨"user", input⟩
  match env.toParamsErr with
  | some m => { outcome := .raised m, memory := mem1, state := state }
  | none =>
    match nextChain env systemPrompt mx mem1 input (pyLower input) with
    | .ok (resp, mem2) => { outcome := .ok resp, memory := mem2, state := state }
    | .error e =>
      { outcome := .ok ("Error: " ++ e.msg), memory := mem1, state := "ERROR" }

/-- Result of BaseAgent.run: the returned text or the propagated
exception text, with the final state and memory. -/
structure RunResult where
  outcome : Except String String
  state : String
  memory : List Message
deriving Repr

/-- BaseAgent.run: state := RUNNING, then next_step; on the keyword path
the response is returned immediately without restoring the state; on the
ordinary path state := IDLE before returning; when next_step raises, the
except handler evaluates the name logger, which base_agent.py never
imports, so NameError propagates and self.state = ERROR is never
executed. -/
def runE (env : AgentEnv) (systemPrompt : String) (mx : Int)
    (mem : List Message) (input : String) : RunResult :=
  let step := nextStepE env systemPrompt mx mem "RUNNING" input
  match step.outcome with
  | .raised _ =>
    { outcome := .error "name \x27logger\x27 is not defined"
      state := step.state, memory := step.memory }
  | .ok resp =>
    if sysKeywords.any (fun k => pyContains (pyLower input) k) then
      { outcome := .ok resp, state := step.state, memory := step.memory }
    else
      { outcome := .ok resp, state := "IDLE", memory := step.memory }

/-! ## Concrete instances used by individual theorems -/

/-- The sandbox root of file_operations.py, Path.home() / uranus_workspace
for a home directory /home/user. -/
def sandboxBase : List String := ["home", "user", "uranus_workspace"]

/-- A registered tool that succeeds, for registry witnesses. -/
def toolOk : ToolBehaviour := fun _ => .ok { success := true, output := "ok" }

/-- A one-tool registry state. -/
def regW : Registry := [("t", toolOk)]

/-- An agent environment with a succeeding system-info tool registered. -/
def envSys : AgentEnv :=
  { sysTool := some (.ok { success := true, output := "System Information: all good" }) }

/-- An agent environment with only the concrete FileOperationsTool
registered. -/
def envFileOps : AgentEnv := { fileOpsRegistered := true }

/-! ## Theorems -/

/-- Memory.add_message followed by the slice trim equals dropping from the
front down to the last max_messages entries, whenever the bound is
positive and already respected. -/
lemma addMessage_eq_drop (mx : Int) (hmx : 1 ≤ mx) (l : List Message) (m : Message)
    (h : l.length ≤ mx.toNat) :
    addMessage mx l m = (l ++ [m]).drop ((l ++ [m]).length - mx.toNat) := by
  unfold addMessage trimMemory pySliceFrom
  by_cases hc : mx < (((l ++ [m]).length : Nat) : Int)
  · rw [if_pos hc, if_neg (by omega)]
    congr 1
    simp only [List.length_append, List.length_cons, List.length_nil] at hc ⊢
    omega
  · rw [if_neg hc]
    have h0 : (l ++ [m]).length - mx.toNat = 0 := by
      simp only [List.length_append, List.length_cons, List.length_nil] at hc ⊢
      omega
    rw [h0, List.drop_zero]

/-- Folding add_message over a batch of appends keeps exactly the most
recent max_messages entries, for a positive bound. -/
lemma foldl_addMessage (mx : Int) (hmx : 1 ≤ mx) :
    ∀ (msgs l : List Message), l.length ≤ mx.toNat →
      msgs.foldl (addMessage mx) l =
        (l ++ msgs).drop ((l ++ msgs).length - mx.toNat) := by
  intro msgs
  induction msgs with
  | nil =>
    intro l h
    simp only [List.foldl_nil, List.append_nil]
    rw [Nat.sub_eq_zero_of_le h, List.drop_zero]
  | cons m rest ih =>
    intro l h
    rw [List.foldl_cons, addMessage_eq_drop mx hmx l m h]
    have hlen : ((l ++ [m]).drop ((l ++ [m]).length - mx.toNat)).length ≤ mx.toNat := by
      simp only [List.length_drop]
      omega
    rw [ih _ hlen]
    have hj : (l ++ [m]).length - mx.toNat ≤ (l ++ [m]).length := Nat.sub_le _ _
    rw [← List.drop_append_of_le_length hj, List.drop_drop]
    have hassoc : l ++ m :: rest = (l ++ [m]) ++ rest := by simp
    rw [hassoc]
    congr 1
    simp only [List.length_drop, List.length_append, List.length_cons, List.length_nil]
    omega

/-- C5, counterexample: with the configured maximum max_messages = 0 the
Python slice messages[-0:] is the whole list, so a single append leaves
one message and the bound is exceeded; the claimed invariant fails. -/
theorem memory_trim_counterexample :
    ¬ (((addMessage 0 [] ⟨"user", "hi"⟩).length : Int) ≤ 0) := by decide

/-- C5, amended: for every configured maximum max_messages >= 1, the
length of the message list never exceeds the maximum after any sequence
of appends; appending more than max_messages messages leaves exactly the
most recent max_messages of them in their original order, and appending
at most max_messages leaves all of them. -/
theorem memory_trim_amended :
    ∀ (mx : Int), 1 ≤ mx →
      ∀ (msgs : List Message),
        ((msgs.foldl (addMessage mx) []).length : Int) ≤ mx ∧
        ((msgs.length : Int) ≤ mx → msgs.foldl (addMessage mx) [] = msgs) ∧
        (mx < (msgs.length : Int) →
          msgs.foldl (addMessage mx) [] = msgs.drop (msgs.length - mx.toNat)) := by
  intro mx hmx msgs
  have h := foldl_addMessage mx hmx msgs [] (Nat.zero_le _)
  simp only [List.nil_append, List.length_nil] at h
  refine ⟨?_, ?_, ?_⟩
  · rw [h]
    simp only [List.length_drop]
    omega
  · intro hle
    rw [h, Nat.sub_eq_zero_of_le (by omega), List.drop_zero]
  · intro _
    exact h

/-- C5, witness: with max_messages = 1, appending two messages leaves
exactly the second. -/
theorem memory_trim_witness :
    ([⟨"user", "a"⟩, ⟨"user", "b"⟩] : List Message).foldl (addMessage 1) [] =
      [⟨"user", "b"⟩] := by
  have h := (memory_trim_amended 1 (by decide) [⟨"user", "a"⟩, ⟨"user", "b"⟩]).2.2 (by decide)
  exact h.trans (by decide)

/-- C4: ToolRegistry.execute is a total function (the source catches every
exception a tool raises); an unregistered name yields a failure result
enumerating the registered names; a raised ToolError becomes a failure
result carrying str(e); any other raised exception becomes a failure
result carrying the wrapped message; a returned result passes through
unchanged. -/
theorem registry_execute_spec :
    ∀ (reg : Registry) (name : String) (kw : Kwargs),
      (dictGet reg name = none →
        registryExecute reg name kw =
          { success := false
            output := "Tool \x27" ++ name ++ "\x27 not found. Available tools: " ++
              String.intercalate ", " (listTools reg)
            data := none }) ∧
      (∀ tool, dictGet reg name = some tool →
        (∀ r, tool kw = .ok r → registryExecute reg name kw = r) ∧
        (∀ m, tool kw = .error (.toolError m) →
          registryExecute reg name kw = { success := false, output := m, data := none }) ∧
        (∀ m, tool kw = .error (.otherExc m) →
          registryExecute reg name kw =
            { success := false
              output := "Error executing tool \x27" ++ name ++ "\x27: " ++ m
              data := none })) := by
  intro reg name kw
  constructor
  · intro h
    simp [registryExecute, h]
  · intro tool h
    refine ⟨?_, ?_, ?_⟩ <;> intro x hx <;> simp [registryExecute, h, hx]

/-- C4, witness: in the one-tool registry, executing a missing name fails
listing the registered name, and executing the registered tool returns
its own result unchanged. -/
theorem registry_execute_witness :
    registryExecute regW "x" [] =
      { success := false
        output := "Tool \x27x\x27 not found. Available tools: t"
        data := none } ∧
    registryExecute regW "t" [] = { success := true, output := "ok", data := none } := by
  constructor
  · exact (registry_execute_spec regW "x" []).1 rfl
  · exact ((registry_execute_spec regW "t" []).2 toolOk rfl).1
      { success := true, output := "ok" } rfl

/-- C3, counterexample: a worker that prints the text A and then raises
an exception with message bad does not have its captured standard output
relayed; the result text is the exception message instead, refuting the
claim that the captured standard output is relayed in the non-timeout
case. -/
theorem python_execute_counterexample :
    (pythonExecute 5 (.raises "A" "bad")).1.success = false ∧
    ¬ ((pythonExecute 5 (.raises "A" "bad")).1.output = "A") ∧
    (pythonExecute 5 (.raises "A" "bad")).1.output = "Error executing code: bad" := by
  decide

/-- C3, amended: execute always returns with the worker no longer
running; a worker alive past the timeout yields a failure result whose
output cites the timeout; a worker that finished without an exception has
its captured standard output relayed with success=true; a worker that
raised has success=false and the exception message (not the captured
standard output) relayed behind a fixed prefix. -/
theorem python_execute_amended :
    ∀ (t : Nat) (w : WorkerRun),
      (pythonExecute t w).2 = false ∧
      (w = .runsPastTimeout →
        (pythonExecute t w).1 =
          { success := false
            output := "Execution timed out after " ++ toString t ++ " seconds"
            data := none }) ∧
      (∀ out, w = .completes out →
        (pythonExecute t w).1 = { success := true, output := out, data := none }) ∧
      (∀ out e, w = .raises out e →
        (pythonExecute t w).1 =
          { success := false, output := "Error executing code: " ++ e, data := none }) := by
  intro t w
  cases w <;>
    refine ⟨rfl, ?_, ?_, ?_⟩ <;>
      first
        | (intro h; cases h; rfl)
        | (intro out h; cases h; rfl)
        | (intro out e h; cases h; rfl)
        | (intro out h; exact absurd h (by simp))
        | (intro out e h; exact absurd h (by simp))
        | (intro h; exact absurd h (by simp))

/-- C3, witness: a worker alive past a 1-second timeout yields the
timeout failure result. -/
theorem python_execute_witness :
    (pythonExecute 1 .runsPastTimeout).1 =
      { success := false, output := "Execution timed out after 1 seconds", data := none } :=
  ((python_execute_amended 1 .runsPastTimeout).2.1 rfl).trans (by decide)

/-- C10: TerminalTool.execute returns success=True whenever no exception
escapes the command loop, regardless of failed segments; concretely, a
cd to a missing directory leaves the output empty and records the failure
text only in the data error field, invisible to a caller that inspects
only the success flag. -/
theorem terminal_success_flag_spec :
    ∀ (ex : List String → Bool) (chd : List String → Option String)
      (sub : String → List String → String × String) (st : TermState) (cmd : String),
      (terminalExecute ex chd sub st cmd).2.1.success = true ∧
      (terminalExecute (fun _ => false) (fun _ => none) (fun _ _ => ("", ""))
          ⟨["h"], ["h"]⟩ "cd nope").2.1 =
        { success := true
          output := ""
          data := some [("error", "Directory not found: /h/nope"),
                        ("current_path", "/h")] } := by
  intro ex chd sub st cmd
  constructor
  · rfl
  · decide

/-- Every segment handed to a subprocess by the terminal command loop is
one that does not start with cd-space. -/
lemma runSegments_calls_not_cd (ex : List String → Bool)
    (chd : List String → Option String)
    (sub : String → List String → String × String) :
    ∀ (segs : List String) (st : TermState) (c : SubCall),
      c ∈ (runSegments ex chd sub st segs).2.2.2 →
      pyStartsWith c.cmd "cd " = false := by
  intro segs
  induction segs with
  | nil =>
    intro st c hc
    simp [runSegments] at hc
  | cons seg rest ih =>
    intro st c hc
    cases hcd : pyStartsWith seg "cd " with
    | false =>
      simp only [runSegments, hcd, Bool.false_eq_true, if_false, List.mem_cons] at hc
      rcases hc with hc | hc
      · rw [hc]; exact hcd
      · exact ih st c hc
    | true =>
      simp only [runSegments, hcd, if_true] at hc
      cases hex : ex (cdTarget st.toolPath (pyTrim (pyDrop seg 3))) with
      | false =>
        simp only [hex, Bool.false_eq_true, if_false] at hc
        exact ih st c hc
      | true =>
        simp only [hex, if_true] at hc
        cases hch : chd (cdTarget st.toolPath (pyTrim (pyDrop seg 3))) with
        | none =>
          simp only [hch] at hc
          exact ih _ c hc
        | some m =>
          simp only [hch] at hc
          exact ih st c hc

/-- Along the terminal command loop the stored current path and the
process working directory move together: either nothing changed or the
two are equal (a successful cd sets both to the same target). -/
lemma runSegments_state_pair (ex : List String → Bool)
    (chd : List String → Option String)
    (sub : String → List String → String × String) :
    ∀ (segs : List String) (st : TermState),
      (runSegments ex chd sub st segs).1 = st ∨
      (runSegments ex chd sub st segs).1.toolPath =
        (runSegments ex chd sub st segs).1.procCwd := by
  intro segs
  induction segs with
  | nil =>
    intro st
    left
    rfl
  | cons seg rest ih =>
    intro st
    cases hcd : pyStartsWith seg "cd " with
    | false =>
      simp only [runSegments, hcd, Bool.false_eq_true, if_false]
      exact ih st
    | true =>
      simp only [runSegments, hcd, if_true]
      cases hex : ex (cdTarget st.toolPath (pyTrim (pyDrop seg 3))) with
      | false =>
        simp only [hex, Bool.false_eq_true, if_false]
        exact ih st
      | true =>
        simp only [hex, if_true]
        cases hch : chd (cdTarget st.toolPath (pyTrim (pyDrop seg 3))) with
        | none =>
          simp only [hch]
          rcases ih { toolPath := cdTarget st.toolPath (pyTrim (pyDrop seg 3))
                      procCwd := cdTarget st.toolPath (pyTrim (pyDrop seg 3)) } with h | h
          · right
            rw [h]
          · right
            exact h
        | some m =>
          simp only [hch]
          exact ih st

/-- C9, counterexample: a successful cd on the terminal tool does not
only update the stored current path; os.chdir also changes the
process-wide working directory, refuting the no-other-process-wide-state
clause of the claim. -/
theorem terminal_cd_counterexample :
    ((terminalExecute (fun q => q == ["h", "sub"]) (fun _ => none) (fun _ _ => ("", ""))
        ⟨["h"], ["r"]⟩ "cd sub").1.procCwd ≠ (["r"] : List String)) ∧
    (terminalExecute (fun q => q == ["h", "sub"]) (fun _ => none) (fun _ _ => ("", ""))
        ⟨["h"], ["r"]⟩ "cd sub").2.1.output = "Changed directory to /h/sub" := by
  decide

/-- C9, amended: a cd segment is intercepted by the tool and never handed
to a subprocess; its target is resolved against the stored current path
when relative and existence-checked; on success the tool updates both its
stored current path and the process working directory (via os.chdir) to
the target and emits a confirmation line; every non-cd segment runs in a
subprocess with the stored current path as working directory. -/
theorem terminal_cd_amended :
    ∀ (ex : List String → Bool) (chd : List String → Option String)
      (sub : String → List String → String × String) (st : TermState)
      (segs : List String) (seg : String),
      (∀ c ∈ (runSegments ex chd sub st segs).2.2.2,
        pyStartsWith c.cmd "cd " = false) ∧
      ((runSegments ex chd sub st segs).1 = st ∨
        (runSegments ex chd sub st segs).1.toolPath =
          (runSegments ex chd sub st segs).1.procCwd) ∧
      (pyStartsWith seg "cd " = true →
        ex (cdTarget st.toolPath (pyTrim (pyDrop seg 3))) = true →
        chd (cdTarget st.toolPath (pyTrim (pyDrop seg 3))) = none →
        runSegments ex chd sub st [seg] =
          ({ toolPath := cdTarget st.toolPath (pyTrim (pyDrop seg 3))
             procCwd := cdTarget st.toolPath (pyTrim (pyDrop seg 3)) },
           "Changed directory to " ++
             pathString (cdTarget st.toolPath (pyTrim (pyDrop seg 3))) ++ "\n",
           "", [])) ∧
      (pyStartsWith seg "cd " = false →
        runSegments ex chd sub st [seg] =
          (st,
           (if (sub seg st.toolPath).1 == "" then "" else (sub seg st.toolPath).1 ++ "\n"),
           (if (sub seg st.toolPath).2 == "" then "" else (sub seg st.toolPath).2 ++ "\n"),
           [⟨seg, st.toolPath⟩])) := by
  intro ex chd sub st segs seg
  refine ⟨runSegments_calls_not_cd ex chd sub segs st,
         runSegments_state_pair ex chd sub segs st, ?_, ?_⟩
  · intro h1 h2 h3
    simp [runSegments, h1, h2, h3]
  · intro h1
    simp [runSegments, h1]

/-- C9, witness: executing the single segment cd sub from stored path /h
with /h/sub existing moves both stored path and process directory to
/h/sub and emits the confirmation line, with no subprocess call. -/
theorem terminal_cd_witness :
    runSegments (fun q => q == ["h", "sub"]) (fun _ => none) (fun _ _ => ("", ""))
        ⟨["h"], ["r"]⟩ ["cd sub"] =
      (⟨["h", "sub"], ["h", "sub"]⟩, "Changed directory to /h/sub\n", "", []) := by
  have h := (terminal_cd_amended (fun q => q == ["h", "sub"]) (fun _ => none)
      (fun _ _ => ("", "")) ⟨["h"], ["r"]⟩ [] "cd sub").2.2.1 (by decide) (by decide) rfl
  exact h.trans (by decide)

/-- Intercalation of the path separator over the empty component list. -/
lemma interNil : List.intercalate (['/'] : List Char) [] = [] := by
  simp [List.intercalate]

/-- Intercalation of the path separator over one component. -/
lemma interSingle (x : List Char) : List.intercalate ['/'] [x] = x := by
  simp [List.intercalate]

/-- Intercalation of the path separator over two or more components. -/
lemma interCons (x y : List Char) (t : List (List Char)) :
    List.intercalate ['/'] (x :: y :: t) =
      x ++ '/' :: List.intercalate ['/'] (y :: t) := by
  simp [List.intercalate, List.intersperse_cons_cons]

/-- A prefix of an append either stays within the left part or covers it
entirely and continues as a prefix of the right part. -/
lemma prefix_append_split {α : Type} (x y z : List α) (h : x <+: y ++ z) :
    x <+: y ∨ ∃ w, x = y ++ w ∧ w <+: z := by
  induction y generalizing x with
  | nil =>
    right
    exact ⟨x, rfl, by simpa using h⟩
  | cons a y' ih =>
    cases x with
    | nil => exact Or.inl (List.nil_prefix)
    | cons b x' =>
      rw [List.cons_append, List.cons_prefix_cons] at h
      obtain ⟨rfl, h'⟩ := h
      rcases ih x' h' with h1 | ⟨w, rfl, hw⟩
      · exact Or.inl (List.cons_prefix_cons.mpr ⟨rfl, h1⟩)
      · exact Or.inr ⟨w, by simp, hw⟩

/-- Two separator-free components followed by the separator compare as
wholes: a prefix relation between the rendered forms forces the first
components to be equal. -/
lemma seg_eq_of_sep_prefix (a e u v : List Char)
    (ha : ('/' : Char) ∉ a) (he : ('/' : Char) ∉ e)
    (h : a ++ '/' :: u <+: e ++ '/' :: v) : a = e ∧ u <+: v := by
  induction a generalizing e with
  | nil =>
    cases e with
    | nil =>
      simp only [List.nil_append, List.cons_prefix_cons] at h
      exact ⟨rfl, h.2⟩
    | cons c e' =>
      exfalso
      simp only [List.nil_append, List.cons_append, List.cons_prefix_cons] at h
      exact he (h.1 ▸ List.mem_cons_self c e')
  | cons b a' ih =>
    cases e with
    | nil =>
      exfalso
      simp only [List.cons_append, List.nil_append, List.cons_prefix_cons] at h
      exact ha (h.1 ▸ List.mem_cons_self b a')
    | cons c e' =>
      rw [List.cons_append, List.cons_append, List.cons_prefix_cons] at h
      obtain ⟨rfl, h'⟩ := h
      have hr := ih e' (fun hm => ha (List.mem_cons_of_mem _ hm))
        (fun hm => he (List.mem_cons_of_mem _ hm)) h'
      exact ⟨by rw [hr.1], hr.2⟩

/-- Characterization of the startswith guard at the component level: if
the rendered form of base is a code-point prefix of the rendered form of
r (components separator-free, base components nonempty), then r agrees
with base on all but the last component and continues with a component
extending base's last component as a character prefix. -/
lemma inter_prefix_diverge :
    ∀ (base : List String), base ≠ [] →
      (∀ s ∈ base, ('/' : Char) ∉ s.data ∧ s ≠ "") →
      ∀ (r : List String), (∀ s ∈ r, ('/' : Char) ∉ s.data) →
      List.intercalate ['/'] (base.map String.data) <+:
        List.intercalate ['/'] (r.map String.data) →
      ∃ e t, r = base.dropLast ++ e :: t ∧ (base.getLast?.getD "").data <+: e.data := by
  intro base
  induction base with
  | nil => intro h; exact absurd rfl h
  | cons a base' ih =>
    intro _ hbase r hr h
    cases base' with
    | nil =>
      simp only [List.map_cons, List.map_nil, interSingle] at h
      cases r with
      | nil =>
        exfalso
        simp only [List.map_nil, interNil] at h
        have ha : a.data = [] := List.prefix_nil.mp h
        have : a = "" := by
          cases a
          exact congrArg String.mk ha
        exact (hbase a (List.mem_cons_self a [])).2 this
      | cons e r' =>
        cases r' with
        | nil =>
          refine ⟨e, [], by simp, ?_⟩
          simp only [List.map_cons, List.map_nil, interSingle] at h
          simpa using h
        | cons y t' =>
          simp only [List.map_cons, interCons] at h
          rcases prefix_append_split a.data e.data _ h with h1 | ⟨w, hw, hw'⟩
          · exact ⟨e, y :: t', by simp, by simpa using h1⟩
          · cases w with
            | nil =>
              refine ⟨e, y :: t', by simp, ?_⟩
              simp only [List.append_nil] at hw
              simp [hw]
            | cons c w' =>
              exfalso
              have hc : c = '/' := by
                have := List.cons_prefix_cons.mp hw'
                exact this.1
              have hmem : ('/' : Char) ∈ a.data := by
                rw [hw, hc]
                exact List.mem_append_right _ (List.mem_cons_self _ _)
              exact (hbase a (List.mem_cons_self a [])).1 hmem
    | cons b base'' =>
      cases r with
      | nil =>
        exfalso
        simp only [List.map_cons, interCons, List.map_nil, interNil] at h
        have := List.prefix_nil.mp h
        have ha : a ≠ "" := (hbase a (List.mem_cons_self a _)).2
        have : a.data ++ '/' :: List.intercalate ['/'] ((b :: base'').map String.data) ≠ [] := by
          simp
        exact this (List.prefix_nil.mp h)
      | cons e r' =>
        cases r' with
        | nil =>
          exfalso
          simp only [List.map_cons, List.map_nil, interCons, interSingle] at h
          have hmem : ('/' : Char) ∈ e.data :=
            h.subset (List.mem_append_right _ (List.mem_cons_self _ _))
          exact hr e (List.mem_cons_self e []) hmem
        | cons y t' =>
          simp only [List.map_cons, interCons] at h
          have hseg := seg_eq_of_sep_prefix a.data e.data _ _
            (hbase a (List.mem_cons_self a _)).1
            (hr e (List.mem_cons_self e _)) h
          have hae : a = e := by
            cases a
            cases e
            exact congrArg String.mk hseg.1
          have ihr := ih (by simp) (fun s hs => hbase s (List.mem_cons_of_mem a hs))
            (y :: t') (fun s hs => hr s (List.mem_cons_of_mem e hs)) hseg.2
          obtain ⟨e', t'', heq, hpre⟩ := ihr
          refine ⟨e', t'', ?_, ?_⟩
          · rw [List.dropLast_cons_of_ne_nil (by simp : b :: base'' ≠ [])]
            rw [List.cons_append, ← heq, hae]
          · rwa [List.getLast?_cons_cons]

/-- Membership transport through the canonicalization fold: every
component of the resolved path was a component of the joined path. -/
lemma mem_resolveSegs_aux :
    ∀ (segs acc : List String) (s : String),
      s ∈ segs.foldl (fun acc s => if s = ".." then acc.dropLast else acc ++ [s]) acc →
      s ∈ acc ∨ s ∈ segs := by
  intro segs
  induction segs with
  | nil =>
    intro acc s h
    exact Or.inl h
  | cons x rest ih =>
    intro acc s h
    rw [List.foldl_cons] at h
    rcases ih _ s h with h1 | h1
    · by_cases hx : x = ".."
      · rw [if_pos hx] at h1
        exact Or.inl ((List.dropLast_prefix acc).subset h1)
      · rw [if_neg hx] at h1
        rcases List.mem_append.mp h1 with h2 | h2
        · exact Or.inl h2
        · right
          simp only [List.mem_singleton] at h2
          simp [h2]
    · right
      simp [h1]

/-- Every component of a resolved path occurs in its input. -/
lemma mem_resolveSegs (segs : List String) (s : String)
    (h : s ∈ resolveSegs segs) : s ∈ segs := by
  rcases mem_resolveSegs_aux segs [] s h with h1 | h1
  · simp at h1
  · exact h1

/-- The component-level divergence shape makes the decidable sibling test
true. -/
lemma sibDivB_of_shape (base : List String) (hb : base ≠ []) (e : String)
    (t r : List String) (hr : r = base.dropLast ++ e :: t)
    (hpre : (base.getLast?.getD "").data <+: e.data) : sibDivB base r = true := by
  subst hr
  unfold sibDivB
  have hlen : base.length - 1 = base.dropLast.length := by
    rw [List.length_dropLast]
  rw [hlen, List.drop_left]
  simp only [Bool.and_eq_true]
  refine ⟨⟨?_, ?_⟩, ?_⟩
  · simp [List.isEmpty_iff, hb]
  · rw [List.isPrefixOf_iff_prefix]
    exact List.prefix_append _ _
  · rw [List.isPrefixOf_iff_prefix]
    exact hpre

/-- C1, counterexample: the path ../uranus_workspace_evil/secret.txt
resolves outside the sandbox root /home/user/uranus_workspace (the root
is not a component-prefix of the resolution), yet the startswith guard of
FileOperationsTool.execute accepts it and the read proceeds at the
escaped location, refuting the claim that every escaping path is
rejected. -/
theorem sandbox_escape_counterexample :
    (sandboxBase.isPrefixOf
      (resolveSegs (joinPath sandboxBase "../uranus_workspace_evil/secret.txt")) = false) ∧
    fileOpsGate sandboxBase "read" "../uranus_workspace_evil/secret.txt" =
      .ok ("read", ["home", "user", "uranus_workspace_evil", "secret.txt"]) := by
  constructor
  · decide
  · rfl

/-- C1, amended: for every operation and path argument, if the canonical
resolution of the path against the sandbox root is not a sibling-name
extension of the root (it neither stays inside the root nor diverges at
the root's last component into a component extending that name), then
execute raises the access-denied ToolError before performing any
filesystem I/O.  Sibling-name extensions are the sole escapes the
startswith guard accepts. -/
theorem sandbox_reject_amended :
    ∀ (base : List String) (op p : String), base ≠ [] →
      (∀ s ∈ base, ('/' : Char) ∉ s.data ∧ s ≠ "") →
      (∀ s ∈ splitPath p, ('/' : Char) ∉ s.data) →
      sibDivB base (resolveSegs (joinPath base p)) = false →
      fileOpsGate base op p =
        .error ("Access denied: Path must be within " ++ pathString base) := by
  intro base op p hb hbseg hpseg hsib
  unfold fileOpsGate sandboxGuard
  cases hpre : (renderChars base).isPrefixOf (renderChars (resolveSegs (joinPath base p))) with
  | false => simp [hpre]
  | true =>
    exfalso
    have hr : ∀ s ∈ resolveSegs (joinPath base p), ('/' : Char) ∉ s.data := by
      intro s hs
      have hm := mem_resolveSegs _ _ hs
      unfold joinPath at hm
      cases habs : pyStartsWith p "/" with
      | true =>
        rw [habs] at hm
        simp only [if_true] at hm
        exact hpseg s hm
      | false =>
        rw [habs] at hm
        simp only [Bool.false_eq_true, if_false] at hm
        rcases List.mem_append.mp hm with h1 | h1
        · exact (hbseg s h1).1
        · exact hpseg s h1
    have hpre' : List.intercalate ['/'] (base.map String.data) <+:
        List.intercalate ['/'] ((resolveSegs (joinPath base p)).map String.data) := by
      have hx := List.isPrefixOf_iff_prefix.mp hpre
      unfold renderChars at hx
      exact (List.cons_prefix_cons.mp hx).2
    obtain ⟨e, t, heq, hp⟩ := inter_prefix_diverge base hb hbseg _ hr hpre'
    rw [sibDivB_of_shape base hb e t _ heq hp] at hsib
    exact absurd hsib (by simp)

/-- C1, witness: the absolute path /etc/passwd resolves outside the
sandbox root and is not a sibling-name extension, so the guard rejects it
with the access-denied error. -/
theorem sandbox_reject_witness :
    fileOpsGate sandboxBase "read" "/etc/passwd" =
      .error ("Access denied: Path must be within " ++ pathString sandboxBase) :=
  sandbox_reject_amended sandboxBase "read" "/etc/passwd" (by decide) (by decide)
    (by decide) (by decide)

/-- C2: when next_step raises (here: a registered tool whose
get_parameters_schema raises, making self.tools.to_params() raise before
the try block), BaseAgent.run does not return the formatted error text;
its except handler evaluates the unimported name logger first, so a
NameError propagates to the caller, the state is left at RUNNING, and the
line setting the error state is never executed. -/
theorem run_propagates_nameerror :
    runE { toParamsErr := some "boom" } "" 100 [] "hello" =
      { outcome := .error "name \x27logger\x27 is not defined"
        state := "RUNNING"
        memory := [⟨"user", "hello"⟩] } := by
  rfl

/-- C6: on the input create file notes.txt with FileOperationsTool
registered, the dispatch calls the tool with keyword arguments action,
name and content, which the tool's signature (operation, path, content,
recursive) rejects with a TypeError; next_step therefore answers with the
caught error text, sets the state to ERROR, and no file is created (the
call never enters the tool body, so no filesystem operation runs). -/
theorem create_file_type_error :
    nextStepE envFileOps "" 100 [] "RUNNING" "create file notes.txt" =
      { outcome := .ok "Error: execute() got an unexpected keyword argument \x27action\x27"
        memory := [⟨"user", "create file notes.txt"⟩]
        state := "ERROR" } := by
  decide

/-- C7: on the input list files with FileOperationsTool registered, the
dispatch calls the tool with keyword arguments action and path, which the
tool's signature rejects with a TypeError, so next_step answers with the
caught error text instead of a listing; and the input ls never reaches
the file-listing branch, because the earlier terminal branch always
returns first (here: its tool-absent message). -/
theorem list_files_type_error :
    (nextStepE envFileOps "" 100 [] "RUNNING" "list files" =
      { outcome := .ok "Error: execute() got an unexpected keyword argument \x27action\x27"
        memory := [⟨"user", "list files"⟩]
        state := "ERROR" }) ∧
    (nextStepE envFileOps "" 100 [] "RUNNING" "ls" =
      { outcome := .ok "Terminal tool is not available. Please make sure it\x27s properly registered."
        memory := [⟨"user", "ls"⟩]
        state := "RUNNING" }) := by
  constructor
  · decide
  · decide

/-- C8: a successful run on the input system status (system-info tool
registered and succeeding) returns through the early keyword path of
BaseAgent.run, which never restores the state: the call returns its
answer with the state still RUNNING, refuting the claim that the state is
idle or error whenever run returns. -/
theorem run_keyword_state_stuck :
    (runE envSys "" 100 [] "system status").state = "RUNNING" ∧
    (runE envSys "" 100 [] "system status").outcome =
      .ok ("Here\x27s the current system status:\n\nSystem Information: all good") := by
  constructor
  · rfl
  · rfl

end Uranus
